import Mathlib

/-!
Shallow embedding of the MT5-wrapper service (`main.py`) and verification of
the specification's claims about its reconciliation, selection, normalization
and robot-registry logic.

Modelling conventions:
* Machine integers of the source (tickets, entry kinds, epoch timestamps) are
  `Nat`/`Int`; Python integers are unbounded, so no wrap-around is modelled.
* Prices, volumes and money amounts are Python floats in the source, but the
  service only ever copies them between records (no arithmetic), so they are
  modelled as abstract `Int` values.
* Python strings are modelled as `List Char` (so that everything evaluates by
  kernel reduction).
* The MetaTrader 5 terminal is modelled as a record of query functions
  (`Mt5Conn`): a `none` result models the library returning `None` (its error
  signal), `some []` models an empty successful tuple.
* `raise HTTPException(...)` / `try ... except Exception` are modelled with
  `Except HTTPException`: in FastAPI, `HTTPException` is a subclass of
  `Exception`, so a blanket `except Exception` handler catches it; the
  embedding therefore catches every `.error` of the body, exactly like the
  source.
-/

namespace Mt5Wrapper

/-! ## Timestamp rendering

`datetime.fromtimestamp(t, tz=timezone.utc).isoformat()` renders an epoch
value as a UTC ISO-8601 string such as `1970-01-01T00:00:00+00:00`.  The
civil-date computation follows the standard days-to-civil algorithm; Python's
`datetime` supports years 1..9999, and the theorems below only quantify over
epoch values inside that range.  For millisecond fields the source computes
`fromtimestamp(ms / 1000)` with float division; for values in the
float-exact range this yields `ms` whole milliseconds, rendered as a
microsecond fraction, which is what the model computes. -/

/-- Convert a count of days since 1970-01-01 to a civil (year, month, day). -/
def civilFromDays (z0 : Int) : Int × Nat × Nat :=
  let z : Int := z0 + 719468
  let era : Int := Int.fdiv z 146097
  let doe : Nat := (z - era * 146097).toNat
  let yoe : Nat := (doe - doe / 1460 + doe / 36524 - doe / 146096) / 365
  let y : Int := (yoe : Int) + era * 400
  let doy : Nat := doe - (365 * yoe + yoe / 4 - yoe / 100)
  let mp : Nat := (5 * doy + 2) / 153
  let d : Nat := doy - (153 * mp + 2) / 5 + 1
  let m : Nat := if mp < 10 then mp + 3 else mp - 9
  (if m ≤ 2 then y + 1 else y, m, d)

/-- Decimal rendering of `n`, zero-padded to `w` digits. -/
def padDigits : Nat → Nat → List Char
  | 0, _ => []
  | w + 1, n => padDigits w (n / 10) ++ [Nat.digitChar (n % 10)]

/-- Render epoch seconds `t` plus `micro` microseconds as an aware-UTC
ISO-8601 string, in the exact shape `datetime.isoformat` produces
(the microsecond fraction is omitted when zero, the offset is `+00:00`). -/
def isoCore (t : Int) (micro : Nat) : List Char :=
  let days : Int := Int.fdiv t 86400
  let sod : Nat := (Int.fmod t 86400).toNat
  let c := civilFromDays days
  let frac : List Char := if micro = 0 then [] else '.' :: padDigits 6 micro
  padDigits 4 c.1.toNat ++ '-' :: (padDigits 2 c.2.1 ++ '-' :: (padDigits 2 c.2.2 ++
    'T' :: (padDigits 2 (sod / 3600) ++ ':' :: (padDigits 2 (sod % 3600 / 60) ++
    ':' :: (padDigits 2 (sod % 60) ++ frac ++ ['+', '0', '0', ':', '0', '0'])))))

/-- `datetime.fromtimestamp(t, tz=timezone.utc).isoformat()` for whole
seconds. -/
def isoUtcOfSeconds (t : Int) : List Char := isoCore t 0

/-- `datetime.fromtimestamp(ms / 1000, tz=timezone.utc).isoformat()` for a
millisecond epoch value. -/
def isoUtcOfMillis (ms : Int) : List Char :=
  isoCore (Int.fdiv ms 1000) ((Int.fmod ms 1000).toNat * 1000)

/-! ## Data model (MetaTrader record shapes used by the service) -/

/-- A live position record, with the fields `main.py` reads. -/
structure Position where
  ticket : Nat
  time : Int
  type : Nat
  magic : Nat
  volume : Int
  price_open : Int
  sl : Int
  tp : Int
  symbol : List Char
  comment : List Char
  deriving DecidableEq, Repr

/-- A historical deal record, with the fields `main.py` reads.
`entry = 0` is `DEAL_ENTRY_IN` (an opening deal). -/
structure Deal where
  ticket : Nat
  order : Nat
  position_id : Nat
  entry : Nat
  time : Int
  time_msc : Int
  type : Nat
  magic : Nat
  volume : Int
  price : Int
  profit : Int
  commission : Int
  swap : Int
  reason : Nat
  symbol : List Char
  comment : List Char
  deriving DecidableEq, Repr

/-- A historical order record, with the fields `main.py` reads. -/
structure Order where
  ticket : Nat
  sl : Int
  tp : Int
  comment : List Char
  deriving DecidableEq, Repr

/-- The MetaTrader 5 connection, as the query interface the endpoints use.
`none` models the library returning `None` (its error signal); `some []`
models an empty successful tuple. `history_deals_get` is called with two
distinct keyword filters in the source, modelled as two fields. -/
structure Mt5Conn where
  positions_get : Nat → Option (List Position)
  history_deals_get_by_position : Nat → Option (List Deal)
  history_deals_get_by_ticket : Nat → Option (List Deal)
  history_orders_get : Nat → Option (List Order)

/-- `fastapi.HTTPException`, reduced to its status code. -/
structure HTTPException where
  status_code : Nat
  deriving DecidableEq, Repr

/-- `order_info[0] if order_info and len(order_info) > 0 else None`
(main.py:268; the position endpoint's main.py:231-233 is the same
computation): the first record of a non-empty successful order query. -/
def first_order (conn : Mt5Conn) (ticket : Nat) : Option Order :=
  match conn.history_orders_get ticket with
  | none => none
  | some [] => none
  | some (o :: _) => some o

/-! ## `/enriched-position-details/{position_id}` -/

/-- The `enriched_data` dict built by `get_enriched_position_details`. -/
structure EnrichedPosition where
  ticket : Nat
  time : List Char
  type : Nat
  magic : Nat
  volume : Int
  price_open : Int
  sl : Int
  tp : Int
  symbol : List Char
  comment : List Char
  deriving DecidableEq, Repr

/-- The `enriched_data` dict as first initialized from the position's own
fields (main.py:210-221). -/
def position_base_record (position_info : Position) : EnrichedPosition :=
  { ticket := position_info.ticket
    time := isoUtcOfSeconds position_info.time
    type := position_info.type
    magic := position_info.magic
    volume := position_info.volume
    price_open := position_info.price_open
    sl := position_info.sl
    tp := position_info.tp
    symbol := position_info.symbol
    comment := position_info.comment }

/-- The `enriched_data` dict after the conditional override of
main.py:234-237: when an opening order was found its `sl`/`tp`/`comment`
replace the position's own, otherwise the dict is unchanged. -/
def position_enriched (position_info : Position) (opening_order : Option Order) :
    EnrichedPosition :=
  match opening_order with
  | none => position_base_record position_info
  | some o =>
    { position_base_record position_info with
        sl := o.sl
        tp := o.tp
        comment := o.comment }

/-- `get_enriched_position_details` (main.py:196-243).  The opening order is
`history_orders_get` of the first `entry == 0` deal of the position's
history, looked up only when such a deal exists and the history query was
truthy (main.py:224-233).  The whole body runs inside
`try: ... except Exception: raise HTTPException(500)`; since FastAPI's
`HTTPException` derives from `Exception`, the explicit 404 raised inside the
`try` is also caught and re-raised as a 500, which the final `match`
mirrors. -/
def get_enriched_position_details (conn : Mt5Conn) (position_id : Nat) :
    Except HTTPException EnrichedPosition :=
  let body : Except HTTPException EnrichedPosition :=
    match conn.positions_get position_id with
    | none => .error ⟨404⟩
    | some [] => .error ⟨404⟩
    | some (position_info :: _) =>
      let opening_order : Option Order :=
        match conn.history_deals_get_by_position position_id with
        | none => none
        | some [] => none
        | some (d0 :: ds) =>
          ((d0 :: ds).find? (fun d => d.entry == 0)).bind
            (fun opening_deal => first_order conn opening_deal.order)
      .ok (position_enriched position_info opening_order)
  match body with
  | .ok v => .ok v
  | .error _ => .error ⟨500⟩

/-! ## `/enriched-trade-details/{deal_ticket}` -/

/-- The `enriched_data` dict built by `get_enriched_trade_details`. -/
structure EnrichedTrade where
  deal_ticket : Nat
  position_id : Nat
  symbol : List Char
  volume : Int
  magic_number : Nat
  profit : Int
  commission : Int
  swap : Int
  close_price : Int
  close_time_utc : List Char
  close_reason : Nat
  order_type : Nat
  open_price : Option Int
  open_time_utc : Option (List Char)
  stop_loss : Int
  take_profit : Int
  deriving DecidableEq, Repr

/-- The `enriched_data` dict of main.py:270-287: closing-side fields from
the closing deal, opening-side fields from the opening deal when present
(`order_type` falls back to the closing deal's own type, `open_price` and
`open_time_utc` to `None`), stop-loss/take-profit from the opening order
when present (else `0.0`). -/
def trade_enriched (closing_deal : Deal) (opening_deal : Option Deal)
    (opening_order : Option Order) : EnrichedTrade :=
  { deal_ticket := closing_deal.ticket
    position_id := closing_deal.position_id
    symbol := closing_deal.symbol
    volume := closing_deal.volume
    magic_number := closing_deal.magic
    profit := closing_deal.profit
    commission := closing_deal.commission
    swap := closing_deal.swap
    close_price := closing_deal.price
    close_time_utc := isoUtcOfSeconds closing_deal.time
    close_reason := closing_deal.reason
    order_type :=
      match opening_deal with
      | some d => d.type
      | none => closing_deal.type
    open_price :=
      match opening_deal with
      | some d => some d.price
      | none => none
    open_time_utc :=
      match opening_deal with
      | some d => some (isoUtcOfSeconds d.time)
      | none => none
    stop_loss :=
      match opening_order with
      | some o => o.sl
      | none => 0
    take_profit :=
      match opening_order with
      | some o => o.tp
      | none => 0 }

/-- `get_enriched_trade_details` (main.py:246-292).  The opening deal is the
first `entry == 0` record of the closing deal's position history when that
query was truthy (main.py:260-264), its order is looked up only then
(main.py:265-268).  Same `try`/`except` shape as the position endpoint: the
explicit 404 inside the `try` is caught by `except Exception` and re-raised
as a 500. -/
def get_enriched_trade_details (conn : Mt5Conn) (deal_ticket : Nat) :
    Except HTTPException EnrichedTrade :=
  let body : Except HTTPException EnrichedTrade :=
    match conn.history_deals_get_by_ticket deal_ticket with
    | none => .error ⟨404⟩
    | some [] => .error ⟨404⟩
    | some (closing_deal :: _) =>
      let opening_deal : Option Deal :=
        match conn.history_deals_get_by_position closing_deal.position_id with
        | none => none
        | some [] => none
        | some (d0 :: ds) => (d0 :: ds).find? (fun d => d.entry == 0)
      let opening_order : Option Order :=
        opening_deal.bind (fun d => first_order conn d.order)
      .ok (trade_enriched closing_deal opening_deal opening_order)
  match body with
  | .ok v => .ok v
  | .error _ => .error ⟨500⟩

/-! ## `/latest-deals/{count}`

`get_latest_deals` (main.py:88-128).  The reference time comes from the last
M1 candle of EURUSD when available (`rates[0].time + 1 minute`), else the
system clock; the window is the 90 days up to that reference.  Python's
`sorted(all_deals, key=lambda d: d.time, reverse=True)` is a stable sort:
records are ordered by time descending and records with equal times keep
their source order.  `List.insertionSort` with the relation
`fun a b => b.time ≤ a.time` is such a stable descending sort, hence
extensionally the same function.  The endpoint finally renders the `time` and
`time_msc` fields of each selected record (main.py:118-121), a per-record
transformation modelled by `normalizeDealRecord` below; the selection itself
is the list returned here. -/

/-- The terminal queries used by `get_latest_deals`: `rates_time` is the
`time` of the most recent M1 candle (`none` when `copy_rates_from_pos`
returns `None` or an empty array), `history_deals_get` takes the from/to
epoch instants and returns the deals in that range (`none` models the
library's `None` error return). -/
structure DealsSource where
  rates_time : Option Int
  history_deals_get : Int → Int → Option (List Deal)

/-- The reference instant (main.py:96-105): the candle time plus one minute
when available, else the system clock `now`. -/
def latestDealsToDate (src : DealsSource) (now : Int) : Int :=
  match src.rates_time with
  | none => now
  | some server_timestamp => server_timestamp + 60

/-- The comparison `sorted(..., key=lambda d: d.time, reverse=True)` sorts
by: `a` may come before `b` iff `b.time ≤ a.time`. -/
def dealTimeDesc (a b : Deal) : Prop := b.time ≤ a.time

instance : DecidableRel dealTimeDesc := fun a b => Int.decLe b.time a.time

instance : IsTotal Deal dealTimeDesc := ⟨fun a b => le_total b.time a.time⟩

instance : IsTrans Deal dealTimeDesc := ⟨fun _ _ _ h1 h2 => le_trans h2 h1⟩

/-- `get_latest_deals` (main.py:88-128), selection part: compute the window,
fetch, map `None`/empty to `[]`, stably sort by time descending, truncate to
`count`.  The surrounding `try`/`except` returns `[]` on any exception; in
this model no other exception source exists. -/
def get_latest_deals (src : DealsSource) (now : Int) (count : Nat) : List Deal :=
  let to_date : Int := latestDealsToDate src now
  let from_date : Int := to_date - 90 * 86400
  match src.history_deals_get from_date to_date with
  | none => []
  | some [] => []
  | some (d0 :: ds) =>
    (List.insertionSort dealTimeDesc (d0 :: ds)).take count

/-! ## Raw-record timestamp normalization

`get_open_positions` (main.py:78-85) and `get_latest_deals` (main.py:118-121)
turn each record into a dict (`_asdict()`) and overwrite its time-like fields
in place: `p[k] = datetime.fromtimestamp(p[k], tz=timezone.utc).isoformat()`
for second-unit fields and `p[k] = datetime.fromtimestamp(p[k] / 1000,
tz=timezone.utc).isoformat()` for millisecond-unit fields.  A dict is
modelled as an association list of field name to value; reading an absent key
raises `KeyError`, and `fromtimestamp` of a non-number raises `TypeError`. -/

/-- A Python dict value as the normalizer sees it: an epoch integer or an
already-rendered string. -/
inductive Value where
  | int (n : Int)
  | str (s : List Char)
  deriving DecidableEq, Repr

/-- A raw record: a flat mapping of field name to value. -/
abbrev RawRecord := List (List Char × Value)

/-- Dict lookup (`p[k]` on the right-hand side): first matching key. -/
def RawRecord.get : RawRecord → List Char → Option Value
  | [], _ => none
  | kv :: rest, k => if kv.1 == k then some kv.2 else RawRecord.get rest k

/-- Dict assignment (`p[k] = v`): replace the value when the key is present
(keys are unique in a Python dict), append otherwise. -/
def RawRecord.set : RawRecord → List Char → Value → RawRecord
  | [], k, v => [(k, v)]
  | kv :: rest, k, v =>
    if kv.1 == k then (k, v) :: rest else kv :: RawRecord.set rest k v

/-- The Python exceptions the normalization statements can raise. -/
inductive PyError where
  | keyError (k : List Char)
  | typeError
  deriving DecidableEq, Repr

/-- One normalization statement
`p[k] = render(p[k])`: raises `KeyError` when `k` is absent and `TypeError`
when its value is not a number. -/
def setFieldIso (render : Int → List Char) (k : List Char) (r : RawRecord) :
    Except PyError RawRecord :=
  match r.get k with
  | none => .error (.keyError k)
  | some (.str _) => .error .typeError
  | some (.int v) => .ok (r.set k (.str (render v)))

def timeField : List Char := "time".data

def timeMscField : List Char := "time_msc".data

def timeUpdateField : List Char := "time_update".data

def timeUpdateMscField : List Char := "time_update_msc".data

/-- The four statements of main.py:80-83 applied to one position dict. -/
def normalizePositionRecord (p : RawRecord) : Except PyError RawRecord := do
  let p ← setFieldIso isoUtcOfSeconds timeField p
  let p ← setFieldIso isoUtcOfMillis timeMscField p
  let p ← setFieldIso isoUtcOfSeconds timeUpdateField p
  let p ← setFieldIso isoUtcOfMillis timeUpdateMscField p
  pure p

/-- The two statements of main.py:120-121 applied to one deal dict. -/
def normalizeDealRecord (d : RawRecord) : Except PyError RawRecord := do
  let d ← setFieldIso isoUtcOfSeconds timeField d
  let d ← setFieldIso isoUtcOfMillis timeMscField d
  pure d

/-! ## `/robots` and `extract_magic_number_from_mq5` -/

/-- The encodings tried, in source order (main.py:302). -/
inductive Encoding where
  | utf16
  | utf8sig
  | cp1252
  deriving DecidableEq, Repr

/-- The Experts directory: its file listing and, for each path and encoding,
the decoded text (`none` models `FileNotFoundError` at open or
`UnicodeDecodeError` while reading — the two exceptions the source catches;
a missing file yields `none` for every encoding). -/
structure ExpertsDir where
  listing : List (List Char)
  read : List Char → Encoding → Option (List Char)

/-- The encoding loop of main.py:302-309: try each encoding in order, keep
the first successfully decoded content. -/
def tryEncodingsRead (dir : ExpertsDir) (file_path : List Char) :
    List Encoding → Option (List Char)
  | [] => none
  | e :: rest =>
    match dir.read file_path e with
    | some content => some content
    | none => tryEncodingsRead dir file_path rest

/-- ASCII lowercasing, as both `str.lower()` and the regex's `re.IGNORECASE`
behave on the ASCII letters involved here. -/
def asciiLower (c : Char) : Char :=
  if 'A' ≤ c ∧ c ≤ 'Z' then Char.ofNat (c.toNat + 32) else c

/-- `\s` on ASCII: space, tab, newline, carriage return, vertical tab,
form feed. -/
def isWsChar (c : Char) : Bool :=
  c == ' ' || c == '\t' || c == '\n' || c == '\r' || c == '\x0b' || c == '\x0c'

/-- Case-insensitive literal match: consume `kw` from the head of `s`. -/
def matchCI : List Char → List Char → Option (List Char)
  | [], s => some s
  | _ :: _, [] => none
  | k :: ks, c :: cs =>
    if asciiLower c == asciiLower k then matchCI ks cs else none

/-- `\s+`: at least one whitespace character, maximal munch (the regex's
backtracking can never help here because no keyword starts with
whitespace). -/
def wsPlus : List Char → Option (List Char)
  | [] => none
  | c :: cs => if isWsChar c then some (cs.dropWhile isWsChar) else none

/-- `\s*`. -/
def wsStar (s : List Char) : List Char := s.dropWhile isWsChar

/-- A single expected literal character. -/
def expectChar (c : Char) : List Char → Option (List Char)
  | [] => none
  | x :: xs => if x == c then some xs else none

/-- `int(...)` on the captured digit group. -/
def digitsToNat (ds : List Char) : Nat :=
  ds.foldl (fun n c => 10 * n + (c.toNat - 48)) 0

/-- `(\d+)`: a maximal nonempty digit run and its numeric value (maximal
munch is complete because the pattern continues with `\s*;`, and a digit is
neither whitespace nor a semicolon). -/
def digitsPlus (s : List Char) : Option (Nat × List Char) :=
  match s.takeWhile Char.isDigit with
  | [] => none
  | d :: ds => some (digitsToNat (d :: ds), s.dropWhile Char.isDigit)

/-- Match `input\s+int\s+MagicNumber\s*=\s*(\d+)\s*;` (case-insensitively)
anchored at the head of `s`, returning the captured number. -/
def matchMagicAt (s : List Char) : Option Nat := do
  let s ← matchCI "input".data s
  let s ← wsPlus s
  let s ← matchCI "int".data s
  let s ← wsPlus s
  let s ← matchCI "MagicNumber".data s
  let s := wsStar s
  let s ← expectChar '=' s
  let s := wsStar s
  let (n, s) ← digitsPlus s
  let s := wsStar s
  let _ ← expectChar ';' s
  pure n

/-- `re.search(...)`: leftmost match — try each start position from the left.
Matches the capture of the first position where the pattern matches. -/
def searchMagic : List Char → Option Nat
  | [] => none
  | c :: cs =>
    match matchMagicAt (c :: cs) with
    | some n => some n
    | none => searchMagic cs

/-- `extract_magic_number_from_mq5` (main.py:294-321): decode the companion
file with the first encoding that works, then search for the declaration. -/
def extract_magic_number_from_mq5 (dir : ExpertsDir) (file_path : List Char) :
    Option Nat :=
  match tryEncodingsRead dir file_path
      [Encoding.utf16, Encoding.utf8sig, Encoding.cp1252] with
  | none => none
  | some content => searchMagic content

/-- One entry of the `/robots` response. -/
structure RobotEntry where
  name : List Char
  magic_number : Nat
  deriving DecidableEq, Repr

/-- `os.path.splitext(f)[0]` for a bare file name: split at the last dot,
unless every character before that dot is itself a dot (leading dots are not
extension separators). -/
def splitextRoot (f : List Char) : List Char :=
  let extRev := f.reverse.takeWhile (fun c => c != '.')
  if extRev.length = f.length then f
  else
    let stem := f.take (f.length - extRev.length - 1)
    if stem.all (fun c => c == '.') then f else stem

/-- `f.lower().endswith(".ex5")`. -/
def endsWithEx5 (f : List Char) : Bool :=
  List.isSuffixOf ".ex5".data (f.map asciiLower)

/-- `list_available_robots` (main.py:156-191), scanning part: keep the
`.ex5` files, derive each robot name, extract the magic number from the
same-named `.mq5` companion, and include the candidate only when extraction
succeeded.  (The endpoint wraps this in a handler that turns an unreadable
directory into a 500; the scan itself, modelled here, is total.) -/
def list_available_robots (dir : ExpertsDir) : List RobotEntry :=
  let robot_files := dir.listing.filter endsWithEx5
  robot_files.filterMap (fun ex5_file =>
    let robot_name := splitextRoot ex5_file
    let mq5_path := robot_name ++ ".mq5".data
    match extract_magic_number_from_mq5 dir mq5_path with
    | none => none
    | some magic_number => some { name := robot_name, magic_number := magic_number })

/-! # Helper lemmas -/

/-- Decidable equality of `Except` results, so that concrete endpoint
outcomes can be checked by `decide`. -/
instance {ε α : Type} [DecidableEq ε] [DecidableEq α] :
    DecidableEq (Except ε α) := fun x y =>
  match x, y with
  | .ok a, .ok b =>
    if h : a = b then .isTrue (h ▸ rfl)
    else .isFalse fun hh => h (Except.ok.inj hh)
  | .error a, .error b =>
    if h : a = b then .isTrue (h ▸ rfl)
    else .isFalse fun hh => h (Except.error.inj hh)
  | .ok _, .error _ => .isFalse fun hh => Except.noConfusion hh
  | .error _, .ok _ => .isFalse fun hh => Except.noConfusion hh

/-- If `filter p` of a list is the singleton `[a]`, then `find? p` finds
exactly `a`. -/
theorem find?_of_filter_singleton {α : Type} (p : α → Bool) :
    ∀ (l : List α) (a : α), l.filter p = [a] → l.find? p = some a := by
  intro l a h
  induction l with
  | nil => simp at h
  | cons x xs ih =>
    by_cases hx : p x
    · rw [List.filter_cons_of_pos hx] at h
      injection h with h1 h2
      subst h1
      simp [List.find?_cons, hx]
    · rw [List.filter_cons_of_neg (by simpa using hx)] at h
      simp [List.find?_cons, hx, ih h]

/-- `find?` on a decomposed list whose prefix has no hit finds the marked
element. -/
theorem find?_first {α : Type} (p : α → Bool) :
    ∀ (pre : List α) (d : α) (post : List α), (∀ x ∈ pre, p x = false) →
      p d = true → (pre ++ d :: post).find? p = some d := by
  intro pre d post hpre hd
  induction pre with
  | nil => simp [List.find?_cons, hd]
  | cons x xs ih =>
    have hx := hpre x (by simp)
    simp only [List.cons_append, List.find?_cons, hx]
    exact ih (fun y hy => hpre y (by simp [hy]))

/-- Reduction of the position endpoint when the position exists and the
history query succeeds with `L`. -/
theorem enrich_position_ok {conn : Mt5Conn} {position_id : Nat} {p : Position}
    {ps : List Position} {L : List Deal}
    (hp : conn.positions_get position_id = some (p :: ps))
    (hds : conn.history_deals_get_by_position position_id = some L) :
    get_enriched_position_details conn position_id =
      .ok (position_enriched p
        ((L.find? (fun d => d.entry == 0)).bind
          (fun opening_deal => first_order conn opening_deal.order))) := by
  cases L with
  | nil => simp [get_enriched_position_details, hp, hds]
  | cons d0 ds => simp [get_enriched_position_details, hp, hds]

/-- Reduction of the position endpoint when the position exists and the
history query returns `None`. -/
theorem enrich_position_no_history {conn : Mt5Conn} {position_id : Nat}
    {p : Position} {ps : List Position}
    (hp : conn.positions_get position_id = some (p :: ps))
    (hds : conn.history_deals_get_by_position position_id = none) :
    get_enriched_position_details conn position_id =
      .ok (position_enriched p none) := by
  simp [get_enriched_position_details, hp, hds]

/-- Reduction of the trade endpoint when the deal exists and the
position-history query succeeds with `L`. -/
theorem enrich_trade_ok {conn : Mt5Conn} {deal_ticket : Nat} {c : Deal}
    {cs : List Deal} {L : List Deal}
    (hc : conn.history_deals_get_by_ticket deal_ticket = some (c :: cs))
    (hds : conn.history_deals_get_by_position c.position_id = some L) :
    get_enriched_trade_details conn deal_ticket =
      .ok (trade_enriched c (L.find? (fun d => d.entry == 0))
        ((L.find? (fun d => d.entry == 0)).bind
          (fun d => first_order conn d.order))) := by
  cases L with
  | nil => simp [get_enriched_trade_details, hc, hds]
  | cons d0 ds => simp [get_enriched_trade_details, hc, hds]

/-- Reduction of the trade endpoint when the deal exists and the
position-history query returns `None`. -/
theorem enrich_trade_no_history {conn : Mt5Conn} {deal_ticket : Nat} {c : Deal}
    {cs : List Deal}
    (hc : conn.history_deals_get_by_ticket deal_ticket = some (c :: cs))
    (hds : conn.history_deals_get_by_position c.position_id = none) :
    get_enriched_trade_details conn deal_ticket =
      .ok (trade_enriched c none none) := by
  simp [get_enriched_trade_details, hc, hds]

/-! # Claims -/

/-- **C1** For every position whose deal history contains exactly one
entry-kind-"in" deal whose order id resolves to an order, the enriched
result's `sl`, `tp` and `comment` equal that order's values (overriding the
position's own fields); and for every position with no matching deals in
history, the enriched result's `sl` and `tp` equal the position's own fields
unchanged. -/
theorem enrich_position_sl_tp_correct :
    ∀ (conn : Mt5Conn) (position_id : Nat) (p : Position) (ps : List Position),
      conn.positions_get position_id = some (p :: ps) →
      (∀ (ds : List Deal) (d : Deal) (o : Order) (os : List Order),
         conn.history_deals_get_by_position position_id = some ds →
         ds.filter (fun x => x.entry == 0) = [d] →
         conn.history_orders_get d.order = some (o :: os) →
         ∃ r, get_enriched_position_details conn position_id = .ok r ∧
           r.sl = o.sl ∧ r.tp = o.tp ∧ r.comment = o.comment) ∧
      ((conn.history_deals_get_by_position position_id = none ∨
        conn.history_deals_get_by_position position_id = some []) →
       ∃ r, get_enriched_position_details conn position_id = .ok r ∧
         r.sl = p.sl ∧ r.tp = p.tp) := by
  intro conn position_id p ps hp
  constructor
  · intro ds d o os hds hflt hord
    have hfind := find?_of_filter_singleton _ ds d hflt
    refine ⟨_, enrich_position_ok hp hds, ?_⟩
    simp [hfind, first_order, hord, position_enriched, position_base_record]
  · intro hds
    rcases hds with hds | hds
    · exact ⟨_, enrich_position_no_history hp hds,
        by simp [position_enriched, position_base_record]⟩
    · refine ⟨_, enrich_position_ok hp hds, ?_⟩
      simp [position_enriched, position_base_record]

/-- A connection in which the terminal is reachable but holds no position
and no deal with the queried id: every query succeeds with an empty tuple. -/
def connEmptyTerminal : Mt5Conn :=
  { positions_get := fun _ => some []
    history_deals_get_by_position := fun _ => some []
    history_deals_get_by_ticket := fun _ => some []
    history_orders_get := fun _ => some [] }

/-- Witness for C1: a concrete position (ticket 555) whose history has
exactly one "in" deal resolving to order 10 gets that order's values, and a
concrete position (ticket 777) with empty history keeps its own. -/
def posC1 : Position :=
  { ticket := 555, time := 1600000000, type := 0, magic := 9, volume := 1
    price_open := 100, sl := 11, tp := 12, symbol := "EURUSD".data
    comment := "live".data }

def posC1b : Position :=
  { posC1 with ticket := 777, sl := 31, tp := 32 }

def orderC1 : Order :=
  { ticket := 10, sl := 110, tp := 120, comment := "original".data }

def dealInC1 : Deal :=
  { ticket := 1, order := 10, position_id := 555, entry := 0
    time := 1600000000, time_msc := 1600000000000, type := 0, magic := 9
    volume := 1, price := 100, profit := 0, commission := 0, swap := 0
    reason := 0, symbol := "EURUSD".data, comment := "in".data }

def dealOutC1 : Deal :=
  { dealInC1 with ticket := 2, order := 11, entry := 1, time := 1600001000 }

def connC1 : Mt5Conn :=
  { positions_get := fun t =>
      if t == 555 then some [posC1] else if t == 777 then some [posC1b] else some []
    history_deals_get_by_position := fun pid =>
      if pid == 555 then some [dealInC1, dealOutC1] else some []
    history_deals_get_by_ticket := fun _ => some []
    history_orders_get := fun t => if t == 10 then some [orderC1] else some [] }

theorem enrich_position_sl_tp_correct_witness :
    (∃ r, get_enriched_position_details connC1 555 = .ok r ∧
       r.sl = 110 ∧ r.tp = 120 ∧ r.comment = "original".data) ∧
    (∃ r, get_enriched_position_details connC1 777 = .ok r ∧
       r.sl = 31 ∧ r.tp = 32) :=
  ⟨(enrich_position_sl_tp_correct connC1 555 posC1 [] (by decide)).1
      [dealInC1, dealOutC1] dealInC1 orderC1 [] (by decide) (by decide) (by decide),
   (enrich_position_sl_tp_correct connC1 777 posC1b [] (by decide)).2
      (Or.inr (by decide))⟩

/-- **C2** The claim states that a missing primary entity surfaces as a
client-visible 404; the code instead answers 500: the
`HTTPException(status_code=404)` raised inside the `try` block is caught by
the blanket `except Exception` handler (FastAPI's `HTTPException` derives
from `Exception`) and re-raised as `HTTPException(status_code=500)`.  At a
reachable terminal with no position 42 and no deal 42, both enrichment
endpoints answer 500. -/
theorem notfound_surfaces_as_500 :
    get_enriched_position_details connEmptyTerminal 42 =
      .error { status_code := 500 } ∧
    get_enriched_trade_details connEmptyTerminal 42 =
      .error { status_code := 500 } := by
  constructor <;> rfl

/-- Modelled from the spec's words, for comparison with the code's
selection: "filter to entry kind in; if multiple, take the earliest by
time" (first on ties). -/
def earliestInDeal (ds : List Deal) : Option Deal :=
  (ds.filter (fun d => d.entry == 0)).foldl
    (fun acc d =>
      match acc with
      | none => some d
      | some e => if d.time < e.time then some d else acc)
    none

def posC3 : Position :=
  { posC1 with ticket := 7, sl := 50, tp := 51 }

/-- A later "in" deal that the source yields first. -/
def dealInLateC3 : Deal :=
  { dealInC1 with
    ticket := 3, order := 100, position_id := 7, time := 1000, price := 111 }

/-- The earliest "in" deal, yielded second. -/
def dealInEarlyC3 : Deal :=
  { dealInC1 with
    ticket := 4, order := 200, position_id := 7, time := 500, price := 222 }

def closingC3 : Deal :=
  { dealInC1 with
    ticket := 8, order := 300, position_id := 7, entry := 1, time := 2000,
    price := 77 }

def orderLateC3 : Order :=
  { ticket := 100, sl := 1, tp := 1, comment := "late".data }

def orderEarlyC3 : Order :=
  { ticket := 200, sl := 2, tp := 2, comment := "early".data }

def connC3 : Mt5Conn :=
  { positions_get := fun t => if t == 7 then some [posC3] else some []
    history_deals_get_by_position := fun pid =>
      if pid == 7 then some [dealInLateC3, dealInEarlyC3] else some []
    history_deals_get_by_ticket := fun t =>
      if t == 8 then some [closingC3] else some []
    history_orders_get := fun t =>
      if t == 100 then some [orderLateC3]
      else if t == 200 then some [orderEarlyC3]
      else some [] }

/-- **C3** (counterexample) When the source yields two "in" deals with the
later-in-time one first, both endpoints enrich from the *first yielded*
"in" deal (order 100, sl = 1, price 111), not from the earliest-by-time one
(order 200, sl = 2, price 222) that the claim designates. -/
theorem opening_deal_not_earliest_counterexample :
    get_enriched_position_details connC3 7 =
      .ok (position_enriched posC3 (some orderLateC3)) ∧
    (position_enriched posC3 (some orderLateC3)).sl = 1 ∧
    get_enriched_trade_details connC3 8 =
      .ok (trade_enriched closingC3 (some dealInLateC3) (some orderLateC3)) ∧
    (trade_enriched closingC3 (some dealInLateC3) (some orderLateC3)).open_price
      = some 111 ∧
    earliestInDeal [dealInLateC3, dealInEarlyC3] = some dealInEarlyC3 ∧
    first_order connC3 dealInEarlyC3.order = some orderEarlyC3 ∧
    orderEarlyC3.sl = 2 ∧ dealInEarlyC3.price = 222 ∧
    (1 : Int) ≠ 2 ∧ (111 : Int) ≠ 222 := by
  decide

/-- **C3** (amended) Both endpoints select as the opening deal the first
entry-kind-"in" deal in the order in which the source yields the position's
deal history (no sort by time is applied, so this is the earliest by time
only when the source yields the history time-ascending); when the history
contains no "in" deal, the opening-order lookup is skipped (the outcome does
not depend on the order source at all). -/
theorem opening_deal_first_in_source_order :
    (∀ (conn : Mt5Conn) (pid tkt : Nat) (p : Position) (ps : List Position)
       (pre : List Deal) (d : Deal) (post : List Deal) (c : Deal)
       (cs : List Deal) (o : Order) (os : List Order),
       conn.positions_get pid = some (p :: ps) →
       conn.history_deals_get_by_position pid = some (pre ++ d :: post) →
       (∀ x ∈ pre, x.entry ≠ 0) → d.entry = 0 →
       conn.history_orders_get d.order = some (o :: os) →
       conn.history_deals_get_by_ticket tkt = some (c :: cs) →
       c.position_id = pid →
       get_enriched_position_details conn pid =
         .ok (position_enriched p (some o)) ∧
       get_enriched_trade_details conn tkt =
         .ok (trade_enriched c (some d) (some o))) ∧
    (∀ (conn conn2 : Mt5Conn) (pid tkt : Nat),
       conn2.positions_get = conn.positions_get →
       conn2.history_deals_get_by_position = conn.history_deals_get_by_position →
       conn2.history_deals_get_by_ticket = conn.history_deals_get_by_ticket →
       (∀ q ds, conn.history_deals_get_by_position q = some ds →
          ∀ x ∈ ds, x.entry ≠ 0) →
       get_enriched_position_details conn pid =
         get_enriched_position_details conn2 pid ∧
       get_enriched_trade_details conn tkt =
         get_enriched_trade_details conn2 tkt) := by
  constructor
  · intro conn pid tkt p ps pre d post c cs o os hp hds hpre hd hord hc hcp
    subst hcp
    have hfind : (pre ++ d :: post).find? (fun x => x.entry == 0) = some d :=
      find?_first _ pre d post (fun x hx => by simpa using hpre x hx)
        (by simpa using hd)
    constructor
    · rw [enrich_position_ok hp hds]
      simp [hfind, first_order, hord]
    · rw [enrich_trade_ok hc hds]
      simp [hfind, first_order, hord]
  · intro conn conn2 pid tkt hpg hdp hdt hno
    have hfind : ∀ q L, conn.history_deals_get_by_position q = some L →
        L.find? (fun x => x.entry == 0) = none := by
      intro q L hL
      refine List.find?_eq_none.mpr (fun x hx => ?_)
      simpa using hno q L hL x hx
    constructor
    · cases hq : conn.positions_get pid with
      | none => simp [get_enriched_position_details, hpg, hq]
      | some plist =>
        cases plist with
        | nil => simp [get_enriched_position_details, hpg, hq]
        | cons p rest =>
          cases hL : conn.history_deals_get_by_position pid with
          | none => simp [get_enriched_position_details, hpg, hdp, hq, hL]
          | some L =>
            cases L with
            | nil => simp [get_enriched_position_details, hpg, hdp, hq, hL]
            | cons d0 ds =>
              simp [get_enriched_position_details, hpg, hdp, hq, hL,
                hfind pid _ hL]
    · cases hq : conn.history_deals_get_by_ticket tkt with
      | none => simp [get_enriched_trade_details, hdt, hq]
      | some clist =>
        cases clist with
        | nil => simp [get_enriched_trade_details, hdt, hq]
        | cons c rest =>
          cases hL : conn.history_deals_get_by_position c.position_id with
          | none => simp [get_enriched_trade_details, hdt, hdp, hq, hL]
          | some L =>
            cases L with
            | nil => simp [get_enriched_trade_details, hdt, hdp, hq, hL]
            | cons d0 ds =>
              simp [get_enriched_trade_details, hdt, hdp, hq, hL,
                hfind c.position_id _ hL]

/-- A connection whose deal histories contain no "in" deal at all. -/
def connNoInDeals : Mt5Conn :=
  { positions_get := fun _ => some [posC1]
    history_deals_get_by_position := fun _ => some [dealOutC1]
    history_deals_get_by_ticket := fun _ => some [dealOutC1]
    history_orders_get := fun _ => some [orderC1] }

/-- `connNoInDeals` with a completely different (failing) order source. -/
def connNoInDeals2 : Mt5Conn :=
  { connNoInDeals with history_orders_get := fun _ => none }

theorem opening_deal_first_in_source_order_witness :
    (get_enriched_position_details connC3 7 =
        .ok (position_enriched posC3 (some orderLateC3)) ∧
      get_enriched_trade_details connC3 8 =
        .ok (trade_enriched closingC3 (some dealInLateC3) (some orderLateC3))) ∧
    (get_enriched_position_details connNoInDeals 5 =
        get_enriched_position_details connNoInDeals2 5 ∧
      get_enriched_trade_details connNoInDeals 6 =
        get_enriched_trade_details connNoInDeals2 6) :=
  ⟨opening_deal_first_in_source_order.1 connC3 7 8 posC3 [] [] dealInLateC3
      [dealInEarlyC3] closingC3 [] orderLateC3 [] (by decide) (by decide)
      (by decide) (by decide) (by decide) (by decide) (by decide),
   opening_deal_first_in_source_order.2 connNoInDeals connNoInDeals2 5 6 rfl rfl
      rfl (by
        intro q ds h x hx
        simp only [connNoInDeals] at h
        injection h with h2
        subst h2
        simp only [List.mem_singleton] at hx
        subst hx
        decide)⟩

/-- Modelled from the spec's words, for comparison with the code's ordering:
"sort by time descending; ties broken by ticket descending". -/
def dealTimeTicketDesc (a b : Deal) : Prop :=
  b.time < a.time ∨ (b.time = a.time ∧ b.ticket ≤ a.ticket)

instance : DecidableRel dealTimeTicketDesc := fun _ _ =>
  inferInstanceAs (Decidable (_ ∨ _))

/-- Modelled from the spec's words: the claimed output of `latest_deals`. -/
def latestDealsSpecSelection (ds : List Deal) (count : Nat) : List Deal :=
  (List.insertionSort dealTimeTicketDesc ds).take count

/-- Two deals sharing one timestamp, yielded with the smaller ticket first. -/
def tieA : Deal :=
  { dealInC1 with ticket := 1, time := 5 }

def tieB : Deal :=
  { dealInC1 with ticket := 2, time := 5 }

def srcTie : DealsSource :=
  { rates_time := some 1000000, history_deals_get := fun _ _ => some [tieA, tieB] }

/-- **C4** (counterexample) With two deals sharing a timestamp and yielded
smaller-ticket-first, the code returns them in source order `[1, 2]`
(Python's `sorted` is stable and uses only the time key), while the claimed
time-descending/ticket-descending ordering would return `[2, 1]`. -/
theorem latest_deals_tiebreak_counterexample :
    (get_latest_deals srcTie 0 2).map Deal.ticket = [1, 2] ∧
    (latestDealsSpecSelection [tieA, tieB] 2).map Deal.ticket = [2, 1] ∧
    ([1, 2] : List Nat) ≠ [2, 1] := by
  decide

/-- **C4** (amended) For every count N and every sequence the source yields
inside the lookback window, `latest_deals` returns exactly the first N
elements of that sequence stably sorted by time descending — ties keep the
source's relative order, not ticket-descending; the result is never longer
than N, and `count = 0` yields an empty sequence. -/
theorem latest_deals_selection :
    ∀ (src : DealsSource) (now : Int) (count : Nat),
      (get_latest_deals src now count).length ≤ count ∧
      (count = 0 → get_latest_deals src now count = []) ∧
      (∀ ds, src.history_deals_get (latestDealsToDate src now - 7776000)
          (latestDealsToDate src now) = some ds →
        get_latest_deals src now count =
          (List.insertionSort dealTimeDesc ds).take count ∧
        (List.insertionSort dealTimeDesc ds).Perm ds ∧
        List.Sorted dealTimeDesc (List.insertionSort dealTimeDesc ds) ∧
        (∀ a b : Deal, dealTimeDesc a b → List.Sublist [a, b] ds →
          List.Sublist [a, b] (List.insertionSort dealTimeDesc ds))) := by
  intro src now count
  refine ⟨?_, ?_, ?_⟩
  · cases h : src.history_deals_get (latestDealsToDate src now - 7776000)
        (latestDealsToDate src now) with
    | none => simp [get_latest_deals, h]
    | some ds =>
      cases ds with
      | nil => simp [get_latest_deals, h]
      | cons d0 rest =>
        simp [get_latest_deals, h, List.length_take]
  · intro hc
    subst hc
    cases h : src.history_deals_get (latestDealsToDate src now - 7776000)
        (latestDealsToDate src now) with
    | none => simp [get_latest_deals, h]
    | some ds => cases ds <;> simp [get_latest_deals, h]
  · intro ds hds
    refine ⟨?_, List.perm_insertionSort dealTimeDesc ds,
      List.sorted_insertionSort dealTimeDesc ds,
      fun a b hab hsub => List.pair_sublist_insertionSort hab hsub⟩
    cases ds with
    | nil => simp [get_latest_deals, hds]
    | cons d0 rest => simp [get_latest_deals, hds]

theorem latest_deals_selection_witness :
    get_latest_deals srcTie 0 2 =
      (List.insertionSort dealTimeDesc [tieA, tieB]).take 2 ∧
    (get_latest_deals srcTie 0 2).length ≤ 2 :=
  ⟨((latest_deals_selection srcTie 0 2).2.2 [tieA, tieB] (by decide)).1,
   (latest_deals_selection srcTie 0 2).1⟩

/-- A source whose deal fetch fails (the library returns `None`). -/
def srcFailC5 : DealsSource :=
  { rates_time := none, history_deals_get := fun _ _ => none }

/-- A source that reachably yields zero deals in any window. -/
def srcEmptyC5 : DealsSource :=
  { rates_time := none, history_deals_get := fun _ _ => some [] }

/-- **C5** (counterexample) A failed fetch (`history_deals_get` returning
`None`) produces exactly the same empty sequence as a successful
zero-record fetch: the failure is silently mapped to an empty result, not
surfaced as a caller-distinguishable error. -/
theorem latest_deals_failure_counterexample :
    get_latest_deals srcFailC5 0 5 = [] ∧
    get_latest_deals srcEmptyC5 0 5 = [] := by
  decide

/-- **C5** (amended) `latest_deals` maps a failed reference-time lookup to
the system clock (a logged fallback, not an error) and maps both a failed
(`None`) deal fetch and a successful zero-record fetch to the empty
sequence: a fetch failure is deliberately indistinguishable from the empty
successful result (the code's own comment documents returning `[]` on any
error "para no romper el bot"). -/
theorem latest_deals_error_maps_to_empty :
    ∀ (src : DealsSource) (now : Int) (count : Nat),
      (src.rates_time = none → latestDealsToDate src now = now) ∧
      (src.history_deals_get (latestDealsToDate src now - 7776000)
          (latestDealsToDate src now) = none →
        get_latest_deals src now count = []) ∧
      (src.history_deals_get (latestDealsToDate src now - 7776000)
          (latestDealsToDate src now) = some [] →
        get_latest_deals src now count = []) := by
  intro src now count
  refine ⟨?_, ?_, ?_⟩
  · intro h
    simp [latestDealsToDate, h]
  · intro h
    simp [get_latest_deals, h]
  · intro h
    simp [get_latest_deals, h]

theorem latest_deals_error_maps_to_empty_witness :
    latestDealsToDate srcFailC5 0 = 0 ∧
    get_latest_deals srcFailC5 0 5 = [] ∧
    get_latest_deals srcEmptyC5 0 5 = [] :=
  ⟨(latest_deals_error_maps_to_empty srcFailC5 0 5).1 rfl,
   (latest_deals_error_maps_to_empty srcFailC5 0 5).2.1 rfl,
   (latest_deals_error_maps_to_empty srcEmptyC5 0 5).2.2 rfl⟩

/-- A closing deal whose position history query errors (returns `None`). -/
def closingC6 : Deal :=
  { dealInC1 with
    ticket := 9, order := 400, position_id := 77, entry := 1,
    time := 1700000000, price := 7 }

def connC6 : Mt5Conn :=
  { positions_get := fun _ => some []
    history_deals_get_by_position := fun _ => none
    history_deals_get_by_ticket := fun t =>
      if t == 9 then some [closingC6] else some []
    history_orders_get := fun _ => none }

/-- The opening "in" deal of position 77, whose originating-order query
errors (returns `None`) in `connC6ord`. -/
def openingC6 : Deal :=
  { dealInC1 with
    ticket := 10, order := 450, position_id := 77, entry := 0,
    time := 1690000000, price := 5 }

/-- Like `connC6` but the position-history query succeeds and yields the
opening deal; only the order query errors (returns `None`). -/
def connC6ord : Mt5Conn :=
  { positions_get := fun _ => some []
    history_deals_get_by_position := fun _ => some [openingC6, closingC6]
    history_deals_get_by_ticket := fun t =>
      if t == 9 then some [closingC6] else some []
    history_orders_get := fun _ => none }

/-- **C6** (counterexample) Two erroring secondary lookups, neither answered
with a 5xx.  First arm: the closing deal is present but the
position-history lookup *errors* (the library returns `None`, its failure
signal, as opposed to an empty tuple) — the endpoint succeeds with a
silently degraded partial result (opening fields nulled,
stop-loss/take-profit defaulted to 0).  Second arm: the position history
succeeds and yields an opening deal, but the originating-*order* lookup
errors (`None`) — the endpoint again succeeds, keeping the opening deal's
fields (open price 5) while silently defaulting stop-loss/take-profit
to 0. -/
theorem secondary_lookup_error_counterexample :
    get_enriched_trade_details connC6 9 =
      .ok (trade_enriched closingC6 none none) ∧
    (trade_enriched closingC6 none none).open_price = none ∧
    (trade_enriched closingC6 none none).stop_loss = 0 ∧
    (trade_enriched closingC6 none none).take_profit = 0 ∧
    get_enriched_trade_details connC6ord 9 =
      .ok (trade_enriched closingC6 (some openingC6) none) ∧
    (trade_enriched closingC6 (some openingC6) none).open_price = some 5 ∧
    (trade_enriched closingC6 (some openingC6) none).stop_loss = 0 ∧
    (trade_enriched closingC6 (some openingC6) none).take_profit = 0 := by
  decide

/-- **C6** (amended) A failing (`None`) *primary* deal lookup is surfaced as
an error (the 404 path, itself re-raised as a 500 by the blanket handler) —
but a failing (`None`) *secondary* lookup is treated exactly like an empty
result and silently degrades the response to a successful partial
enrichment instead of a 5xx: a `None` position-history query loses the
opening deal entirely (opening fields null, stop-loss/take-profit 0), and a
`None` order query with an opening deal found keeps the opening deal's
fields but defaults stop-loss/take-profit to 0.  (Exceptions raised inside
the body are caught and surfaced as 500; in this interface model the
library signals lookup failure by returning `None`, which the code
truthiness-checks.) -/
theorem lookup_error_semantics :
    ∀ (conn : Mt5Conn) (tkt : Nat),
      ((conn.history_deals_get_by_ticket tkt = none ∨
        conn.history_deals_get_by_ticket tkt = some []) →
        get_enriched_trade_details conn tkt = .error { status_code := 500 }) ∧
      (∀ c cs, conn.history_deals_get_by_ticket tkt = some (c :: cs) →
        conn.history_deals_get_by_position c.position_id = none →
        get_enriched_trade_details conn tkt =
          .ok (trade_enriched c none none)) ∧
      (∀ c cs pre d post,
        conn.history_deals_get_by_ticket tkt = some (c :: cs) →
        conn.history_deals_get_by_position c.position_id =
          some (pre ++ d :: post) →
        (∀ x ∈ pre, x.entry ≠ 0) → d.entry = 0 →
        conn.history_orders_get d.order = none →
        get_enriched_trade_details conn tkt =
          .ok (trade_enriched c (some d) none)) := by
  intro conn tkt
  refine ⟨?_, ?_, ?_⟩
  · intro h
    rcases h with h | h <;> simp [get_enriched_trade_details, h]
  · intro c cs hc hds
    exact enrich_trade_no_history hc hds
  · intro c cs pre d post hc hds hpre hd hord
    rw [enrich_trade_ok hc hds]
    have hfind := find?_first (fun x => x.entry == 0) pre d post
      (fun x hx => by simpa using hpre x hx) (by simpa using hd)
    simp [hfind, first_order, hord]

/-- `connC6` with a failing primary deal lookup as well. -/
def connC6b : Mt5Conn :=
  { connC6 with history_deals_get_by_ticket := fun _ => none }

theorem lookup_error_semantics_witness :
    get_enriched_trade_details connC6b 9 = .error { status_code := 500 } ∧
    get_enriched_trade_details connC6 9 =
      .ok (trade_enriched closingC6 none none) ∧
    get_enriched_trade_details connC6ord 9 =
      .ok (trade_enriched closingC6 (some openingC6) none) :=
  ⟨(lookup_error_semantics connC6b 9).1 (Or.inl rfl),
   (lookup_error_semantics connC6 9).2.1 closingC6 [] (by decide) rfl,
   (lookup_error_semantics connC6ord 9).2.2 closingC6 [] [] openingC6
      [closingC6] (by decide) (by decide) (by decide) (by decide) rfl⟩

/-- **C7** For every existing closing deal whose position id has no
entry-kind-"in" deal in the (possibly purged) history, `enrich_deal` still
succeeds without raising, with `stop_loss` and `take_profit` equal to the
documented zero default and `open_price`/`open_time_utc` null. -/
theorem enrich_deal_degraded_success :
    ∀ (conn : Mt5Conn) (tkt : Nat) (c : Deal) (cs : List Deal),
      conn.history_deals_get_by_ticket tkt = some (c :: cs) →
      (∀ ds, conn.history_deals_get_by_position c.position_id = some ds →
         ∀ d ∈ ds, d.entry ≠ 0) →
      get_enriched_trade_details conn tkt = .ok (trade_enriched c none none) ∧
      (trade_enriched c none none).stop_loss = 0 ∧
      (trade_enriched c none none).take_profit = 0 ∧
      (trade_enriched c none none).open_price = none ∧
      (trade_enriched c none none).open_time_utc = none := by
  intro conn tkt c cs hc hno
  have hmain : get_enriched_trade_details conn tkt =
      .ok (trade_enriched c none none) := by
    cases hds : conn.history_deals_get_by_position c.position_id with
    | none => exact enrich_trade_no_history hc hds
    | some L =>
      have hfind : L.find? (fun x => x.entry == 0) = none :=
        List.find?_eq_none.mpr (fun x hx => by simpa using hno L hds x hx)
      have hok := enrich_trade_ok hc hds
      rw [hfind] at hok
      simpa using hok
  exact ⟨hmain, rfl, rfl, rfl, rfl⟩

/-- A closing deal whose position history survives only as the closing deal
itself (the opening "in" deal was purged). -/
def closingC7 : Deal :=
  { dealInC1 with
    ticket := 21, order := 500, position_id := 88, entry := 1,
    time := 1650000000, price := 9 }

def connC7 : Mt5Conn :=
  { positions_get := fun _ => some []
    history_deals_get_by_position := fun _ => some [closingC7]
    history_deals_get_by_ticket := fun t =>
      if t == 21 then some [closingC7] else some []
    history_orders_get := fun _ => some [] }

theorem enrich_deal_degraded_success_witness :
    get_enriched_trade_details connC7 21 =
      .ok (trade_enriched closingC7 none none) ∧
    (trade_enriched closingC7 none none).stop_loss = 0 ∧
    (trade_enriched closingC7 none none).take_profit = 0 ∧
    (trade_enriched closingC7 none none).open_price = none ∧
    (trade_enriched closingC7 none none).open_time_utc = none :=
  enrich_deal_degraded_success connC7 21 closingC7 [] (by decide)
    (by
      intro ds h d hd
      simp only [connC7] at h
      injection h with h2
      subst h2
      simp only [List.mem_singleton] at hd
      subst hd
      decide)

/-- A closing deal with no recoverable opening deal, for the composition
counterexample. -/
def closingC8 : Deal :=
  { dealInC1 with
    ticket := 31, order := 600, position_id := 99, entry := 1,
    time := 1660000000, price := 13 }

def connC8 : Mt5Conn :=
  { positions_get := fun _ => some []
    history_deals_get_by_position := fun _ => some [closingC8]
    history_deals_get_by_ticket := fun t =>
      if t == 31 then some [closingC8] else some []
    history_orders_get := fun _ => some [] }

/-- **C8** (counterexample) When no opening deal is found, the claim says
all three opening-side fields are mirrored from the closing deal; the code
mirrors only `order_type`, while `open_price` and `open_time_utc` are null,
not the closing deal's price (13) and time. -/
theorem merged_record_mirror_counterexample :
    get_enriched_trade_details connC8 31 =
      .ok (trade_enriched closingC8 none none) ∧
    (trade_enriched closingC8 none none).order_type = closingC8.type ∧
    closingC8.price = 13 ∧
    (trade_enriched closingC8 none none).open_price = none ∧
    (trade_enriched closingC8 none none).open_price ≠ some closingC8.price ∧
    (trade_enriched closingC8 none none).open_time_utc ≠
      some (isoUtcOfSeconds closingC8.time) := by
  decide

/-- **C8** (amended) The closing-side fields (profit, commission, swap,
close price, close time, close reason) always come from the closing deal;
the opening-side fields (open price, open time, order type) come from the
opening deal when one is found; when no opening deal is found, only
`order_type` is mirrored from the closing deal, while `open_price` and
`open_time_utc` are null. -/
theorem merged_record_composition :
    ∀ (conn : Mt5Conn) (tkt : Nat) (c : Deal) (cs : List Deal)
      (r : EnrichedTrade),
      conn.history_deals_get_by_ticket tkt = some (c :: cs) →
      get_enriched_trade_details conn tkt = .ok r →
      (r.profit = c.profit ∧ r.commission = c.commission ∧ r.swap = c.swap ∧
       r.close_price = c.price ∧ r.close_time_utc = isoUtcOfSeconds c.time ∧
       r.close_reason = c.reason) ∧
      (∀ pre d post,
         conn.history_deals_get_by_position c.position_id =
           some (pre ++ d :: post) →
         (∀ x ∈ pre, x.entry ≠ 0) → d.entry = 0 →
         r.order_type = d.type ∧ r.open_price = some d.price ∧
         r.open_time_utc = some (isoUtcOfSeconds d.time)) ∧
      ((∀ ds, conn.history_deals_get_by_position c.position_id = some ds →
          ∀ x ∈ ds, x.entry ≠ 0) →
       r.order_type = c.type ∧ r.open_price = none ∧
       r.open_time_utc = none) := by
  intro conn tkt c cs r hc hr
  cases hds : conn.history_deals_get_by_position c.position_id with
  | none =>
    rw [enrich_trade_no_history hc hds] at hr
    injection hr with hr2
    subst hr2
    refine ⟨⟨rfl, rfl, rfl, rfl, rfl, rfl⟩, ?_, fun _ => ⟨rfl, rfl, rfl⟩⟩
    intro pre d post h hpre hd
    simp [hds] at h
  | some L =>
    rw [enrich_trade_ok hc hds] at hr
    injection hr with hr2
    subst hr2
    refine ⟨⟨rfl, rfl, rfl, rfl, rfl, rfl⟩, ?_, ?_⟩
    · intro pre d post h hpre hd
      injection h with hL
      subst hL
      have hfind := find?_first (fun x => x.entry == 0) pre d post
        (fun x hx => by simpa using hpre x hx) (by simpa using hd)
      simp [hfind, trade_enriched]
    · intro hno
      have hfind : L.find? (fun x => x.entry == 0) = none :=
        List.find?_eq_none.mpr (fun x hx => by simpa using hno L rfl x hx)
      simp [hfind, trade_enriched]

theorem merged_record_composition_witness :
    (trade_enriched closingC8 none none).profit = closingC8.profit ∧
    (trade_enriched closingC8 none none).close_price = closingC8.price ∧
    (trade_enriched closingC8 none none).order_type = closingC8.type ∧
    (trade_enriched closingC8 none none).open_price = none ∧
    (trade_enriched closingC8 none none).open_time_utc = none := by
  obtain ⟨hclose, hfound, hnotfound⟩ :=
    merged_record_composition connC8 31 closingC8 []
      (trade_enriched closingC8 none none) (by decide) (by decide)
  obtain ⟨h1, h2, h3⟩ := hnotfound (by
    intro ds h x hx
    simp only [connC8] at h
    injection h with h2
    subst h2
    simp only [List.mem_singleton] at hx
    subst hx
    decide)
  exact ⟨hclose.1, hclose.2.2.2.1, h1, h2, h3⟩

/-- `Except` bind reduction on the success path (definitional). -/
theorem except_bind_ok {ε α β : Type} (a : α) (f : α → Except ε β) :
    (Except.ok a >>= f : Except ε β) = f a := rfl

/-- `Except` bind reduction on the error path (definitional). -/
theorem except_bind_error {ε α β : Type} (e : ε) (f : α → Except ε β) :
    (Except.error e >>= f : Except ε β) = Except.error e := rfl

/-- Reading back the key just assigned yields the assigned value. -/
theorem get_set_self : ∀ (r : RawRecord) (k : List Char) (v : Value),
    RawRecord.get (RawRecord.set r k v) k = some v := by
  intro r k v
  induction r with
  | nil =>
    show RawRecord.get [(k, v)] k = some v
    show (if k == k then some v else RawRecord.get [] k) = some v
    simp
  | cons kv rest ih =>
    show RawRecord.get
        (if kv.1 == k then (k, v) :: rest else kv :: RawRecord.set rest k v) k =
      some v
    by_cases h : (kv.1 == k) = true
    · rw [if_pos h]
      show (if k == k then some v else RawRecord.get rest k) = some v
      simp
    · rw [if_neg (by simpa using h)]
      show (if kv.1 == k then some kv.2 else
        RawRecord.get (RawRecord.set rest k v) k) = some v
      rw [if_neg (by simpa using h)]
      exact ih

/-- Assigning one key leaves every other key's value unchanged. -/
theorem get_set_ne : ∀ (r : RawRecord) (k : List Char) (v : Value)
    (k2 : List Char), k2 ≠ k →
    RawRecord.get (RawRecord.set r k v) k2 = RawRecord.get r k2 := by
  intro r k v k2 hne
  have hk : (k == k2) = false := by
    cases hkk : k == k2 with
    | false => rfl
    | true =>
      have hkeq : k = k2 := by simpa using hkk
      exact absurd hkeq.symm hne
  induction r with
  | nil =>
    show RawRecord.get [(k, v)] k2 = RawRecord.get [] k2
    show (if k == k2 then some v else RawRecord.get [] k2) = RawRecord.get [] k2
    rw [if_neg (by simp [hk])]
  | cons kv rest ih =>
    show RawRecord.get
        (if kv.1 == k then (k, v) :: rest else kv :: RawRecord.set rest k v) k2 =
      RawRecord.get (kv :: rest) k2
    by_cases h : (kv.1 == k) = true
    · rw [if_pos h]
      have hkv : (kv.1 == k2) = false := by
        have h1 : kv.1 = k := by simpa using h
        rw [h1]
        exact hk
      show (if k == k2 then some v else RawRecord.get rest k2) =
        RawRecord.get (kv :: rest) k2
      rw [if_neg (by simp [hk])]
      show RawRecord.get rest k2 =
        (if kv.1 == k2 then some kv.2 else RawRecord.get rest k2)
      rw [if_neg (by simp [hkv])]
    · rw [if_neg (by simpa using h)]
      show (if kv.1 == k2 then some kv.2 else
          RawRecord.get (RawRecord.set rest k v) k2) =
        (if kv.1 == k2 then some kv.2 else RawRecord.get rest k2)
      by_cases h2 : (kv.1 == k2) = true
      · rw [if_pos h2, if_pos h2]
      · rw [if_neg (by simpa using h2), if_neg (by simpa using h2)]
        exact ih

/-- One successful normalization statement. -/
theorem setFieldIso_ok (render : Int → List Char) (k : List Char)
    (r : RawRecord) (v : Int) (h : RawRecord.get r k = some (.int v)) :
    setFieldIso render k r = .ok (RawRecord.set r k (.str (render v))) := by
  simp [setFieldIso, h]

/-- One raising normalization statement: reading an absent key. -/
theorem setFieldIso_absent (render : Int → List Char) (k : List Char)
    (r : RawRecord) (h : RawRecord.get r k = none) :
    setFieldIso render k r = .error (.keyError k) := by
  simp [setFieldIso, h]

/-- **C9** (counterexample) A deal record without a `time` key, and a
position record with every time-like key except `time_update_msc`: in both
cases the unconditional `p[k]` subscript raises `KeyError` — the absent
field is not "left absent" and normalization does not succeed. -/
theorem normalizer_absent_field_counterexample :
    normalizeDealRecord [(timeMscField, Value.int 5)] =
      .error (.keyError timeField) ∧
    normalizePositionRecord
      [(timeField, Value.int 0), (timeMscField, Value.int 0),
       (timeUpdateField, Value.int 0)] =
      .error (.keyError timeUpdateMscField) := by
  decide

/-- **C9** (amended) Normalization replaces each of its statically-listed
time-like fields (seconds or milliseconds per field name) with the UTC
ISO-8601 rendering and leaves all other fields unchanged — but it *requires*
those fields to be present with numeric values: when a listed field is
absent the unconditional subscript raises `KeyError` instead of leaving the
field absent (in `get_open_positions` the error propagates; in
`get_latest_deals` the blanket handler then returns `[]`).  The numeric
hypotheses keep the values inside `datetime`'s representable year range,
the domain on which the rendering model is faithful. -/
theorem normalizer_replaces_present_fields :
    (∀ (d d2 : RawRecord) (t m : Int),
       RawRecord.get d timeField = some (.int t) →
       RawRecord.get d timeMscField = some (.int m) →
       0 ≤ t → t < 253402300800 → 0 ≤ m → m < 253402300800000 →
       normalizeDealRecord d = .ok d2 →
       RawRecord.get d2 timeField = some (.str (isoUtcOfSeconds t)) ∧
       RawRecord.get d2 timeMscField = some (.str (isoUtcOfMillis m)) ∧
       (∀ k, k ≠ timeField → k ≠ timeMscField →
         RawRecord.get d2 k = RawRecord.get d k)) ∧
    (∀ d, RawRecord.get d timeField = none →
       normalizeDealRecord d = .error (.keyError timeField)) ∧
    (∀ (p p2 : RawRecord) (t m u um : Int),
       RawRecord.get p timeField = some (.int t) →
       RawRecord.get p timeMscField = some (.int m) →
       RawRecord.get p timeUpdateField = some (.int u) →
       RawRecord.get p timeUpdateMscField = some (.int um) →
       0 ≤ t → t < 253402300800 → 0 ≤ m → m < 253402300800000 →
       0 ≤ u → u < 253402300800 → 0 ≤ um → um < 253402300800000 →
       normalizePositionRecord p = .ok p2 →
       RawRecord.get p2 timeField = some (.str (isoUtcOfSeconds t)) ∧
       RawRecord.get p2 timeMscField = some (.str (isoUtcOfMillis m)) ∧
       RawRecord.get p2 timeUpdateField = some (.str (isoUtcOfSeconds u)) ∧
       RawRecord.get p2 timeUpdateMscField =
         some (.str (isoUtcOfMillis um)) ∧
       (∀ k, k ≠ timeField → k ≠ timeMscField → k ≠ timeUpdateField →
         k ≠ timeUpdateMscField →
         RawRecord.get p2 k = RawRecord.get p k)) ∧
    (∀ p, RawRecord.get p timeField = none →
       normalizePositionRecord p = .error (.keyError timeField)) := by
  refine ⟨?_, ?_, ?_, ?_⟩
  · intro d d2 t m ht hm _ _ _ _ hok
    have h1 := setFieldIso_ok isoUtcOfSeconds timeField d t ht
    have hm1 : RawRecord.get
        (RawRecord.set d timeField (.str (isoUtcOfSeconds t))) timeMscField =
        some (.int m) := by
      rw [get_set_ne _ _ _ _ (by decide)]
      exact hm
    have h2 := setFieldIso_ok isoUtcOfMillis timeMscField _ m hm1
    rw [normalizeDealRecord, h1, except_bind_ok, h2, except_bind_ok] at hok
    have hok2 := Except.ok.inj hok
    subst hok2
    refine ⟨?_, get_set_self _ _ _, ?_⟩
    · rw [get_set_ne _ _ _ _ (by decide)]
      exact get_set_self _ _ _
    · intro k hk1 hk2
      rw [get_set_ne _ _ _ _ hk2, get_set_ne _ _ _ _ hk1]
  · intro d h
    rw [normalizeDealRecord, setFieldIso_absent _ _ _ h, except_bind_error]
  · intro p p2 t m u um ht hm hu hum _ _ _ _ _ _ _ _ hok
    have h1 := setFieldIso_ok isoUtcOfSeconds timeField p t ht
    have hm1 : RawRecord.get
        (RawRecord.set p timeField (.str (isoUtcOfSeconds t))) timeMscField =
        some (.int m) := by
      rw [get_set_ne _ _ _ _ (by decide)]; exact hm
    have h2 := setFieldIso_ok isoUtcOfMillis timeMscField _ m hm1
    have hu1 : RawRecord.get
        (RawRecord.set (RawRecord.set p timeField (.str (isoUtcOfSeconds t)))
          timeMscField (.str (isoUtcOfMillis m))) timeUpdateField =
        some (.int u) := by
      rw [get_set_ne _ _ _ _ (by decide), get_set_ne _ _ _ _ (by decide)]
      exact hu
    have h3 := setFieldIso_ok isoUtcOfSeconds timeUpdateField _ u hu1
    have hum1 : RawRecord.get
        (RawRecord.set
          (RawRecord.set (RawRecord.set p timeField (.str (isoUtcOfSeconds t)))
            timeMscField (.str (isoUtcOfMillis m)))
          timeUpdateField (.str (isoUtcOfSeconds u))) timeUpdateMscField =
        some (.int um) := by
      rw [get_set_ne _ _ _ _ (by decide), get_set_ne _ _ _ _ (by decide),
        get_set_ne _ _ _ _ (by decide)]
      exact hum
    have h4 := setFieldIso_ok isoUtcOfMillis timeUpdateMscField _ um hum1
    rw [normalizePositionRecord, h1, except_bind_ok, h2, except_bind_ok, h3,
      except_bind_ok, h4, except_bind_ok] at hok
    have hok2 := Except.ok.inj hok
    subst hok2
    refine ⟨?_, ?_, ?_, get_set_self _ _ _, ?_⟩
    · rw [get_set_ne _ _ _ _ (by decide), get_set_ne _ _ _ _ (by decide),
        get_set_ne _ _ _ _ (by decide)]
      exact get_set_self _ _ _
    · rw [get_set_ne _ _ _ _ (by decide), get_set_ne _ _ _ _ (by decide)]
      exact get_set_self _ _ _
    · rw [get_set_ne _ _ _ _ (by decide)]
      exact get_set_self _ _ _
    · intro k hk1 hk2 hk3 hk4
      rw [get_set_ne _ _ _ _ hk4, get_set_ne _ _ _ _ hk3,
        get_set_ne _ _ _ _ hk2, get_set_ne _ _ _ _ hk1]
  · intro p h
    rw [normalizePositionRecord, setFieldIso_absent _ _ _ h, except_bind_error]

/-- A concrete raw deal record carrying a pass-through `symbol` field. -/
def exDealRecord : RawRecord :=
  [(timeField, Value.int 1600000000), (timeMscField, Value.int 1600000000123),
   ("symbol".data, Value.str "EURUSD".data)]

theorem normalizer_replaces_present_fields_witness :
    RawRecord.get
        (RawRecord.set
          (RawRecord.set exDealRecord timeField
            (Value.str (isoUtcOfSeconds 1600000000)))
          timeMscField (Value.str (isoUtcOfMillis 1600000000123)))
        timeField = some (Value.str (isoUtcOfSeconds 1600000000)) ∧
    RawRecord.get
        (RawRecord.set
          (RawRecord.set exDealRecord timeField
            (Value.str (isoUtcOfSeconds 1600000000)))
          timeMscField (Value.str (isoUtcOfMillis 1600000000123)))
        "symbol".data = RawRecord.get exDealRecord "symbol".data ∧
    normalizeDealRecord [("symbol".data, Value.str "EURUSD".data)] =
      .error (.keyError timeField) := by
  have happ := normalizer_replaces_present_fields
  refine ⟨?_, ?_, ?_⟩
  · exact (happ.1 exDealRecord _ 1600000000 1600000000123 (by decide)
      (by decide) (by decide) (by decide) (by decide) (by decide)
      (by decide)).1
  · exact (happ.1 exDealRecord _ 1600000000 1600000000123 (by decide)
      (by decide) (by decide) (by decide) (by decide) (by decide)
      (by decide)).2.2 "symbol".data (by decide) (by decide)
  · exact happ.2.1 [("symbol".data, Value.str "EURUSD".data)] (by decide)

/-- Extraction succeeds exactly when some encoding decodes the file and the
decoded text contains the declaration. -/
theorem extract_eq_some_iff (dir : ExpertsDir) (path : List Char) (m : Nat) :
    extract_magic_number_from_mq5 dir path = some m ↔
    ∃ content, tryEncodingsRead dir path
        [Encoding.utf16, Encoding.utf8sig, Encoding.cp1252] = some content ∧
      searchMagic content = some m := by
  unfold extract_magic_number_from_mq5
  cases h : tryEncodingsRead dir path
      [Encoding.utf16, Encoding.utf8sig, Encoding.cp1252] with
  | none => simp
  | some c => simp

/-- **C10** The robot list contains an entry exactly for those `.ex5`
listing entries whose same-base-name `.mq5` companion decodes (under the
first encoding of `utf-16`, `utf-8-sig`, `cp1252` that succeeds) to a text
containing the `input int MagicNumber = <digits>;` declaration, with
`magic_number` the parsed digits; the encoding loop stops at the first
success; a companion that no tried encoding can read (missing or
undecodable) yields no extraction, so the candidate is excluded (the scan
itself is total — exclusion never fails the request). -/
theorem list_robots_inclusion :
    ∀ (dir : ExpertsDir),
      (∀ e : RobotEntry, e ∈ list_available_robots dir ↔
        ∃ f ∈ dir.listing, endsWithEx5 f = true ∧ splitextRoot f = e.name ∧
          ∃ content, tryEncodingsRead dir (e.name ++ ".mq5".data)
              [Encoding.utf16, Encoding.utf8sig, Encoding.cp1252] =
                some content ∧
            searchMagic content = some e.magic_number) ∧
      (∀ (path : List Char) (e1 : Encoding) (rest : List Encoding)
         (c : List Char),
         (dir.read path e1 = some c →
           tryEncodingsRead dir path (e1 :: rest) = some c) ∧
         (dir.read path e1 = none →
           tryEncodingsRead dir path (e1 :: rest) =
             tryEncodingsRead dir path rest)) ∧
      (∀ path, (∀ enc, dir.read path enc = none) →
         extract_magic_number_from_mq5 dir path = none) := by
  intro dir
  refine ⟨?_, ?_, ?_⟩
  · intro e
    constructor
    · intro he
      simp only [list_available_robots, List.mem_filterMap, List.mem_filter]
        at he
      obtain ⟨f, ⟨hfl, hfx⟩, hF⟩ := he
      cases hx : extract_magic_number_from_mq5 dir
          (splitextRoot f ++ ".mq5".data) with
      | none =>
        rw [hx] at hF
        cases hF
      | some m =>
        rw [hx] at hF
        injection hF with hF2
        subst hF2
        exact ⟨f, hfl, hfx, rfl, (extract_eq_some_iff dir _ m).mp hx⟩
    · intro he
      obtain ⟨f, hfl, hfx, hname, content, htry, hsearch⟩ := he
      simp only [list_available_robots, List.mem_filterMap, List.mem_filter]
      refine ⟨f, ⟨hfl, hfx⟩, ?_⟩
      have hx : extract_magic_number_from_mq5 dir
          (splitextRoot f ++ ".mq5".data) = some e.magic_number := by
        rw [hname]
        exact (extract_eq_some_iff dir _ e.magic_number).mpr
          ⟨content, htry, hsearch⟩
      rw [hx, hname]
  · intro path e1 rest c
    constructor
    · intro h
      simp [tryEncodingsRead, h]
    · intro h
      simp [tryEncodingsRead, h]
  · intro path hall
    have hnone : ∀ encs : List Encoding,
        tryEncodingsRead dir path encs = none := by
      intro encs
      induction encs with
      | nil => rfl
      | cons e rest ih => simp [tryEncodingsRead, hall e, ih]
    simp [extract_magic_number_from_mq5, hnone]

/-- Decoded companion text for the witness directory. -/
def exDirContent : List Char := "input int MagicNumber = 12345;".data

/-- A directory with one complete robot (whose `.mq5` is not utf-16 but is
utf-8-sig), one orphan executable, and an unrelated file. -/
def exDir : ExpertsDir :=
  { listing := ["StrategyA.ex5".data, "Orphan.ex5".data, "notes.txt".data]
    read := fun path enc =>
      if path == "StrategyA.mq5".data then
        match enc with
        | .utf16 => none
        | .utf8sig => some exDirContent
        | .cp1252 => some "garbage".data
      else none }

theorem list_robots_inclusion_witness :
    ({ name := "StrategyA".data, magic_number := 12345 } : RobotEntry) ∈
      list_available_robots exDir ∧
    tryEncodingsRead exDir "StrategyA.mq5".data
        [Encoding.utf16, Encoding.utf8sig, Encoding.cp1252] =
      tryEncodingsRead exDir "StrategyA.mq5".data
        [Encoding.utf8sig, Encoding.cp1252] ∧
    extract_magic_number_from_mq5 exDir "Orphan.mq5".data = none :=
  ⟨((list_robots_inclusion exDir).1 _).mpr
      ⟨"StrategyA.ex5".data, by decide, by decide, by decide,
        exDirContent, by decide, by decide⟩,
   ((list_robots_inclusion exDir).2.1 "StrategyA.mq5".data Encoding.utf16
      [Encoding.utf8sig, Encoding.cp1252] []).2 (by decide),
   (list_robots_inclusion exDir).2.2 "Orphan.mq5".data
      (by intro enc; cases enc <;> decide)⟩

end Mt5Wrapper
